import Mathlib

/-!
Verification of the awsappsignals processor core
(`plugins/processors/awsappsignals/processor.go`) and of the ec2tagger
processor translator
(`translator/translate/otel/processor/ec2taggerprocessor/translator.go`).

Shallow embedding conventions:
* `pcommon.Map` attribute maps become association lists `AttrMap`
  (`List (String × String)`); the pipeline only reads and rewrites whole
  maps, so value typing is irrelevant to the claims.
* In-place mutation of Go maps becomes explicit state passing: an
  `attributesMutator`'s `Process(attributes, resourceAttributes, isTrace)`
  returns the new attribute map, the new resource attribute map and the
  `error` result.  The shared live resource-attribute map of a
  `ResourceSpans` / `ResourceMetrics` is threaded sequentially through all
  mutator calls under that resource, exactly as the Go loops do.
* Errors are `Option String` (`none` = Go `nil`); the Go code only logs
  them, which the pure embedding models by discarding them (the log is kept
  only where a claim is about it, in `Shutdown`).
* `RemoveIf` on a datapoint slice becomes `List.filter` with the negated
  predicate, which is exactly its semantics (remove matching elements,
  keep order of the rest).
-/

namespace AwsAppSignals

/-- `pcommon.Map` as an association list from attribute key to value. -/
abbrev AttrMap := List (String × String)

/-- Result of one `attributesMutator.Process(attributes, resourceAttributes,
isTrace)` call: the (possibly mutated) attribute map, the (possibly mutated)
resource attribute map, and the returned `error`. -/
structure MutResult where
  attrs : AttrMap
  resource : AttrMap
  err : Option String
deriving DecidableEq, Repr

/-- The `attributesMutator` interface:
`Process(attributes, resourceAttributes pcommon.Map, isTrace bool) error`,
with in-place map mutation made explicit in the result. -/
abbrev AttributesMutator := AttrMap → AttrMap → Bool → MutResult

/-- The `allowListMutator` interface:
`ShouldBeDropped(attributes pcommon.Map) (bool, error)`. -/
abbrev AllowListMutator := AttrMap → Bool × Option String

/-- The `stopper` interface: `Stop(context.Context) error`.  The context is
irrelevant to every claim, so it is `Unit`. -/
abbrev Stopper := Unit → Option String

/-- The mutable fields of `awsappsignalsprocessor` that processing reads
(`logger` and `config` are omitted: the logger only logs and the config is
only read by the constructors, which live outside this package). -/
structure ProcessorState where
  replaceActions : AttributesMutator
  allowlistMutators : List AllowListMutator
  metricMutators : List AttributesMutator
  traceMutators : List AttributesMutator
  stoppers : List Stopper

/-! ## Start and Shutdown (`processor.go`, `Start` / `Shutdown`) -/

/-- `awsappsignalsprocessor.Start`.  The constructors
(`resolver.NewAttributesResolver`, `normalizer.NewAttributesNormalizer`,
`rules.NewReplacer`, `rules.NewKeeper`, `rules.NewDropper`) live outside this
package, so the constructed components are parameters; the `attributesResolver`
is both an `attributesMutator` and a `stopper`, hence the pair of parameters.
Each `let` line mirrors one assignment of the Go function, in source order. -/
def Start (attributesResolver : AttributesMutator) (resolverStopper : Stopper)
    (attributesNormalizer : AttributesMutator) (replacer : AttributesMutator)
    (keeper dropper : AllowListMutator) (ap : ProcessorState) :
    ProcessorState × Option String :=
  let ap := { ap with stoppers := [resolverStopper] }
  let ap := { ap with metricMutators := [attributesResolver] }
  let ap := { ap with metricMutators := [attributesResolver, attributesNormalizer] }
  let ap := { ap with replaceActions := replacer }
  let ap := { ap with traceMutators := [attributesResolver, attributesNormalizer, replacer] }
  let ap := { ap with allowlistMutators := [keeper, dropper] }
  (ap, none)

/-- `Start` with the dead one-element `metricMutators` assignment removed:
the effective wiring the spec describes. -/
def StartEffective (attributesResolver : AttributesMutator) (resolverStopper : Stopper)
    (attributesNormalizer : AttributesMutator) (replacer : AttributesMutator)
    (keeper dropper : AllowListMutator) (ap : ProcessorState) :
    ProcessorState × Option String :=
  let ap := { ap with stoppers := [resolverStopper] }
  let ap := { ap with metricMutators := [attributesResolver, attributesNormalizer] }
  let ap := { ap with replaceActions := replacer }
  let ap := { ap with traceMutators := [attributesResolver, attributesNormalizer, replacer] }
  let ap := { ap with allowlistMutators := [keeper, dropper] }
  (ap, none)

/-- `awsappsignalsprocessor.Shutdown`: loop over `ap.stoppers`, call `Stop`,
log (`ap.logger.Error "failed to stop"`) the error when non-nil, return `nil`.
The first component is the error log. -/
def Shutdown (ap : ProcessorState) : List String × Option String :=
  (ap.stoppers.foldl (fun log st =>
    match st () with
    | some e => log ++ [e]
    | none => log) [], none)

/-! ## Telemetry data model (`pdata` shapes the processor touches) -/

/-- `ptrace` span: the processor touches only its attribute map; `name`
stands for the untouched payload. -/
structure Span where
  name : String
  attributes : AttrMap
deriving DecidableEq, Repr

/-- `ptrace.ScopeSpans`. -/
structure ScopeSpans where
  spans : List Span
deriving DecidableEq, Repr

/-- `ptrace.ResourceSpans`: resource attributes plus scope spans. -/
structure ResourceSpans where
  resourceAttributes : AttrMap
  scopeSpans : List ScopeSpans
deriving DecidableEq, Repr

/-- `ptrace.Traces`. -/
abbrev Traces := List ResourceSpans

/-- `pmetric.NumberDataPoint` (used by both Gauge and Sum): attribute map
plus untouched numeric payload. -/
structure NumberDataPoint where
  attributes : AttrMap
  value : Int
deriving DecidableEq, Repr

/-- `pmetric.HistogramDataPoint`. -/
structure HistogramDataPoint where
  attributes : AttrMap
  bucketCounts : List Nat
deriving DecidableEq, Repr

/-- `pmetric.ExponentialHistogramDataPoint`. -/
structure ExponentialHistogramDataPoint where
  attributes : AttrMap
  scale : Int
deriving DecidableEq, Repr

/-- `pmetric.SummaryDataPoint`. -/
structure SummaryDataPoint where
  attributes : AttrMap
  quantileValues : List Int
deriving DecidableEq, Repr

/-- The five metric datapoint shapes, plus the `default:` case of the
`m.Type()` switch (`MetricTypeEmpty` / unrecognized). -/
inductive MetricData
  | gauge (dps : List NumberDataPoint)
  | sum (dps : List NumberDataPoint)
  | histogram (dps : List HistogramDataPoint)
  | exponentialHistogram (dps : List ExponentialHistogramDataPoint)
  | summary (dps : List SummaryDataPoint)
  | empty
deriving DecidableEq, Repr

/-- `pmetric.Metric`. -/
structure Metric where
  name : String
  data : MetricData
deriving DecidableEq, Repr

/-- `pmetric.ScopeMetrics`. -/
structure ScopeMetrics where
  metrics : List Metric
deriving DecidableEq, Repr

/-- `pmetric.ResourceMetrics`. -/
structure ResourceMetrics where
  resourceAttributes : AttrMap
  scopeMetrics : List ScopeMetrics
deriving DecidableEq, Repr

/-- `pmetric.Metrics`. -/
abbrev Metrics := List ResourceMetrics

/-! ## The inner mutator loops -/

/-- The inner `for _, mutator := range ...` loop shared by `processTraces`
and every branch of `processMetricAttributes`: each mutator's `Process` runs
on the current attribute and resource maps; its error is only logged
(`ap.logger.Debug(failedToProcessAttribute, ...)`), so it is dropped here. -/
def applyMutators (mutators : List AttributesMutator) (isTrace : Bool)
    (attrs resource : AttrMap) : AttrMap × AttrMap :=
  mutators.foldl (fun p mutator =>
    let r := mutator p.1 p.2 isTrace
    (r.attrs, r.resource)) (attrs, resource)

/-- The closure passed to `dps.RemoveIf` in every branch of
`processMetricAttributes`: walk `ap.allowlistMutators` in order; a non-nil
error is only logged (`failedToProcessAttributeWithCustomRule`); return true
at the first mutator whose boolean verdict is drop, false if none is. -/
def shouldDropDataPoint : List AllowListMutator → AttrMap → Bool
  | [], _ => false
  | mutator :: rest, attrs =>
    let r := mutator attrs
    if r.1 then true else shouldDropDataPoint rest attrs

/-! ## Trace processing (`processTraces`) -/

/-- The `for k` loop over the spans of one scope: every span's attributes run
through the whole trace mutator chain; the live resource attribute map is
threaded through all calls. -/
def processSpans (mutators : List AttributesMutator) :
    List Span → AttrMap → List Span × AttrMap
  | [], resource => ([], resource)
  | span :: rest, resource =>
    let p := applyMutators mutators true span.attributes resource
    let q := processSpans mutators rest p.2
    ({ span with attributes := p.1 } :: q.1, q.2)

/-- The `for j` loop over `rs.ScopeSpans()`. -/
def processScopeSpansList (mutators : List AttributesMutator) :
    List ScopeSpans → AttrMap → List ScopeSpans × AttrMap
  | [], resource => ([], resource)
  | ss :: rest, resource =>
    let p := processSpans mutators ss.spans resource
    let q := processScopeSpansList mutators rest p.2
    ({ ss with spans := p.1 } :: q.1, q.2)

/-- `awsappsignalsprocessor.processTraces`: for every resource-spans entry,
run the trace mutator chain over every span, and return the batch with a nil
error. -/
def processTraces (ap : ProcessorState) (td : Traces) : Traces × Option String :=
  (td.map (fun rs =>
    let p := processScopeSpansList ap.traceMutators rs.scopeSpans rs.resourceAttributes
    { rs with resourceAttributes := p.2, scopeSpans := p.1 }), none)

/-! ## Metric processing (`processMetricAttributes`)

Each `case` of the `m.Type()` switch is the same three sequenced loops over
that kind's datapoint slice — mutate (`for i` over `ap.metricMutators`),
filter (`dps.RemoveIf`), replace (`for i` with `ap.replaceActions`) — written
out once per concrete datapoint type because the Go types share no
supertype.  The embedding keeps the per-kind duplication. -/

/-- Gauge / Sum mutate loop (`for i := 0; i < dps.Len(); i++ { for _, mutator
:= range ap.metricMutators ... }`). -/
def mutateNumberDataPoints (mutators : List AttributesMutator) :
    List NumberDataPoint → AttrMap → List NumberDataPoint × AttrMap
  | [], resource => ([], resource)
  | dp :: rest, resource =>
    let p := applyMutators mutators false dp.attributes resource
    let q := mutateNumberDataPoints mutators rest p.2
    ({ dp with attributes := p.1 } :: q.1, q.2)

/-- Gauge / Sum replace loop (`ap.replaceActions.Process(dps.At(i)...)`). -/
def replaceNumberDataPoints (replaceActions : AttributesMutator) :
    List NumberDataPoint → AttrMap → List NumberDataPoint × AttrMap
  | [], resource => ([], resource)
  | dp :: rest, resource =>
    let r := replaceActions dp.attributes resource false
    let q := replaceNumberDataPoints replaceActions rest r.resource
    ({ dp with attributes := r.attrs } :: q.1, q.2)

/-- One Gauge / Sum branch of `processMetricAttributes`: mutate every
datapoint, `RemoveIf` those the allow-list mutators vote to drop, then run
the replacer over the survivors. -/
def processNumberDataPoints (mutators : List AttributesMutator)
    (allowlistMutators : List AllowListMutator) (replaceActions : AttributesMutator)
    (dps : List NumberDataPoint) (resource : AttrMap) :
    List NumberDataPoint × AttrMap :=
  let p := mutateNumberDataPoints mutators dps resource
  let kept := p.1.filter (fun d => ! shouldDropDataPoint allowlistMutators d.attributes)
  replaceNumberDataPoints replaceActions kept p.2

/-- Histogram mutate loop. -/
def mutateHistogramDataPoints (mutators : List AttributesMutator) :
    List HistogramDataPoint → AttrMap → List HistogramDataPoint × AttrMap
  | [], resource => ([], resource)
  | dp :: rest, resource =>
    let p := applyMutators mutators false dp.attributes resource
    let q := mutateHistogramDataPoints mutators rest p.2
    ({ dp with attributes := p.1 } :: q.1, q.2)

/-- Histogram replace loop. -/
def replaceHistogramDataPoints (replaceActions : AttributesMutator) :
    List HistogramDataPoint → AttrMap → List HistogramDataPoint × AttrMap
  | [], resource => ([], resource)
  | dp :: rest, resource =>
    let r := replaceActions dp.attributes resource false
    let q := replaceHistogramDataPoints replaceActions rest r.resource
    ({ dp with attributes := r.attrs } :: q.1, q.2)

/-- The Histogram branch of `processMetricAttributes`. -/
def processHistogramDataPoints (mutators : List AttributesMutator)
    (allowlistMutators : List AllowListMutator) (replaceActions : AttributesMutator)
    (dps : List HistogramDataPoint) (resource : AttrMap) :
    List HistogramDataPoint × AttrMap :=
  let p := mutateHistogramDataPoints mutators dps resource
  let kept := p.1.filter (fun d => ! shouldDropDataPoint allowlistMutators d.attributes)
  replaceHistogramDataPoints replaceActions kept p.2

/-- ExponentialHistogram mutate loop. -/
def mutateExponentialHistogramDataPoints (mutators : List AttributesMutator) :
    List ExponentialHistogramDataPoint → AttrMap →
      List ExponentialHistogramDataPoint × AttrMap
  | [], resource => ([], resource)
  | dp :: rest, resource =>
    let p := applyMutators mutators false dp.attributes resource
    let q := mutateExponentialHistogramDataPoints mutators rest p.2
    ({ dp with attributes := p.1 } :: q.1, q.2)

/-- ExponentialHistogram replace loop. -/
def replaceExponentialHistogramDataPoints (replaceActions : AttributesMutator) :
    List ExponentialHistogramDataPoint → AttrMap →
      List ExponentialHistogramDataPoint × AttrMap
  | [], resource => ([], resource)
  | dp :: rest, resource =>
    let r := replaceActions dp.attributes resource false
    let q := replaceExponentialHistogramDataPoints replaceActions rest r.resource
    ({ dp with attributes := r.attrs } :: q.1, q.2)

/-- The ExponentialHistogram branch of `processMetricAttributes`. -/
def processExponentialHistogramDataPoints (mutators : List AttributesMutator)
    (allowlistMutators : List AllowListMutator) (replaceActions : AttributesMutator)
    (dps : List ExponentialHistogramDataPoint) (resource : AttrMap) :
    List ExponentialHistogramDataPoint × AttrMap :=
  let p := mutateExponentialHistogramDataPoints mutators dps resource
  let kept := p.1.filter (fun d => ! shouldDropDataPoint allowlistMutators d.attributes)
  replaceExponentialHistogramDataPoints replaceActions kept p.2

/-- Summary mutate loop. -/
def mutateSummaryDataPoints (mutators : List AttributesMutator) :
    List SummaryDataPoint → AttrMap → List SummaryDataPoint × AttrMap
  | [], resource => ([], resource)
  | dp :: rest, resource =>
    let p := applyMutators mutators false dp.attributes resource
    let q := mutateSummaryDataPoints mutators rest p.2
    ({ dp with attributes := p.1 } :: q.1, q.2)

/-- Summary replace loop. -/
def replaceSummaryDataPoints (replaceActions : AttributesMutator) :
    List SummaryDataPoint → AttrMap → List SummaryDataPoint × AttrMap
  | [], resource => ([], resource)
  | dp :: rest, resource =>
    let r := replaceActions dp.attributes resource false
    let q := replaceSummaryDataPoints replaceActions rest r.resource
    ({ dp with attributes := r.attrs } :: q.1, q.2)

/-- The Summary branch of `processMetricAttributes`. -/
def processSummaryDataPoints (mutators : List AttributesMutator)
    (allowlistMutators : List AllowListMutator) (replaceActions : AttributesMutator)
    (dps : List SummaryDataPoint) (resource : AttrMap) :
    List SummaryDataPoint × AttrMap :=
  let p := mutateSummaryDataPoints mutators dps resource
  let kept := p.1.filter (fun d => ! shouldDropDataPoint allowlistMutators d.attributes)
  replaceSummaryDataPoints replaceActions kept p.2

/-- `awsappsignalsprocessor.processMetricAttributes`: dispatch on
`m.Type()`; an unrecognized kind is only logged (`Ignore unknown metric
type`), leaving the metric untouched. -/
def processMetricAttributes (ap : ProcessorState) (m : Metric)
    (resourceAttribes : AttrMap) : Metric × AttrMap :=
  match m.data with
  | .gauge dps =>
    let p := processNumberDataPoints ap.metricMutators ap.allowlistMutators
      ap.replaceActions dps resourceAttribes
    ({ m with data := .gauge p.1 }, p.2)
  | .sum dps =>
    let p := processNumberDataPoints ap.metricMutators ap.allowlistMutators
      ap.replaceActions dps resourceAttribes
    ({ m with data := .sum p.1 }, p.2)
  | .histogram dps =>
    let p := processHistogramDataPoints ap.metricMutators ap.allowlistMutators
      ap.replaceActions dps resourceAttribes
    ({ m with data := .histogram p.1 }, p.2)
  | .exponentialHistogram dps =>
    let p := processExponentialHistogramDataPoints ap.metricMutators
      ap.allowlistMutators ap.replaceActions dps resourceAttribes
    ({ m with data := .exponentialHistogram p.1 }, p.2)
  | .summary dps =>
    let p := processSummaryDataPoints ap.metricMutators ap.allowlistMutators
      ap.replaceActions dps resourceAttribes
    ({ m with data := .summary p.1 }, p.2)
  | .empty => (m, resourceAttribes)

/-- The `for k` loop over the metrics of one scope. -/
def processMetricsInScope (ap : ProcessorState) :
    List Metric → AttrMap → List Metric × AttrMap
  | [], resource => ([], resource)
  | m :: rest, resource =>
    let p := processMetricAttributes ap m resource
    let q := processMetricsInScope ap rest p.2
    (p.1 :: q.1, q.2)

/-- The `for j` loop over `rs.ScopeMetrics()`. -/
def processScopeMetricsList (ap : ProcessorState) :
    List ScopeMetrics → AttrMap → List ScopeMetrics × AttrMap
  | [], resource => ([], resource)
  | sm :: rest, resource =>
    let p := processMetricsInScope ap sm.metrics resource
    let q := processScopeMetricsList ap rest p.2
    ({ sm with metrics := p.1 } :: q.1, q.2)

/-- `awsappsignalsprocessor.processMetrics`: run
`processMetricAttributes` over every metric of the batch and return the
batch with a nil error. -/
def processMetrics (ap : ProcessorState) (md : Metrics) : Metrics × Option String :=
  (md.map (fun rm =>
    let p := processScopeMetricsList ap rm.scopeMetrics rm.resourceAttributes
    { rm with resourceAttributes := p.2, scopeMetrics := p.1 }), none)

/-! ## Spec-modelled rule engine (the `rules` package is outside this
source slice) -/

/-- Modelled from the spec: one selector clause — an attribute-key/value
matcher.  The spec also allows pattern clauses; exact-value clauses suffice
for every claim settled here. -/
structure Selector where
  key : String
  value : String
deriving DecidableEq, Repr

/-- Modelled from the spec: a keep/drop rule is a list of selector clauses. -/
structure FilterRule where
  selectors : List Selector
deriving DecidableEq, Repr

/-- Modelled from the spec: "a rule matches a unit iff all its selector
clauses match" (§4.3). -/
def ruleMatches (rule : FilterRule) (attrs : AttrMap) : Bool :=
  rule.selectors.all (fun s => attrs.lookup s.key == some s.value)

/-- Modelled from the spec: `rules.NewKeeper` — "Keeper evaluates allow-list
rules: if at least one allow-rule is configured and the unit matches none, it
is a drop candidate; if it matches any, it is kept"; "an empty rule set for a
mutator means that mutator never triggers a drop" (§4.3). -/
def keeperShouldBeDropped (keepRules : List FilterRule) (attrs : AttrMap) :
    Bool × Option String :=
  if keepRules.isEmpty then (false, none)
  else if keepRules.any (fun rule => ruleMatches rule attrs) then (false, none)
  else (true, none)

/-- Modelled from the spec: `rules.NewDropper` — "Dropper evaluates deny-list
rules: a match means drop" (§4.3). -/
def dropperShouldBeDropped (dropRules : List FilterRule) (attrs : AttrMap) :
    Bool × Option String :=
  (dropRules.any (fun rule => ruleMatches rule attrs), none)

/-! ## Generic datapoint semantics (spec §3/§9's single datapoint
abstraction, used to compare the five per-kind branches) -/

/-- Mutate phase over bare attribute maps. -/
def mutateAttrMaps (mutators : List AttributesMutator) :
    List AttrMap → AttrMap → List AttrMap × AttrMap
  | [], resource => ([], resource)
  | attrs :: rest, resource =>
    let p := applyMutators mutators false attrs resource
    let q := mutateAttrMaps mutators rest p.2
    (p.1 :: q.1, q.2)

/-- Replace phase over bare attribute maps. -/
def replaceAttrMaps (replaceActions : AttributesMutator) :
    List AttrMap → AttrMap → List AttrMap × AttrMap
  | [], resource => ([], resource)
  | attrs :: rest, resource =>
    let r := replaceActions attrs resource false
    let q := replaceAttrMaps replaceActions rest r.resource
    (r.attrs :: q.1, q.2)

/-- The kind-independent mutate / filter / replace pipeline over bare
attribute maps: the common semantics the five branches are claimed to
implement. -/
def processAttrMaps (mutators : List AttributesMutator)
    (allowlistMutators : List AllowListMutator) (replaceActions : AttributesMutator)
    (attrsList : List AttrMap) (resource : AttrMap) : List AttrMap × AttrMap :=
  let p := mutateAttrMaps mutators attrsList resource
  let kept := p.1.filter (fun a => ! shouldDropDataPoint allowlistMutators a)
  replaceAttrMaps replaceActions kept p.2

/-! ## Error erasure (to state that mutator errors never influence
processing results) -/

/-- The same attributes mutator with its error return forced to nil. -/
def eraseMutatorErr (m : AttributesMutator) : AttributesMutator :=
  fun attrs resource isTrace => { m attrs resource isTrace with err := none }

/-- The same allow-list mutator with its error return forced to nil. -/
def eraseAllowErr (m : AllowListMutator) : AllowListMutator :=
  fun attrs => ((m attrs).1, none)

/-- The processor with every chained mutator's error return forced to nil. -/
def eraseErrState (ap : ProcessorState) : ProcessorState :=
  { ap with
    replaceActions := eraseMutatorErr ap.replaceActions,
    allowlistMutators := ap.allowlistMutators.map eraseAllowErr,
    metricMutators := ap.metricMutators.map eraseMutatorErr,
    traceMutators := ap.traceMutators.map eraseMutatorErr }

/-- A mutator that never touches the resource attribute map (the intended
contract of every shipped mutator). -/
def PreservesResource (m : AttributesMutator) : Prop :=
  ∀ attrs resource isTrace, (m attrs resource isTrace).resource = resource

/-- An initial processor value (the zero-value struct the factory builds
before `Start` runs). -/
def initialState : ProcessorState :=
  { replaceActions := fun attrs resource _ => ⟨attrs, resource, none⟩,
    allowlistMutators := [], metricMutators := [], traceMutators := [],
    stoppers := [] }

/-- An attributes mutator that changes nothing and never fails (a concrete
stand-in for the externally-constructed resolver/normalizer/replacer). -/
def idMutator : AttributesMutator := fun attrs resource _ => ⟨attrs, resource, none⟩

/-- The attribute maps of a metric's datapoints, in order. -/
def metricAttrs (m : Metric) : List AttrMap :=
  match m.data with
  | .gauge dps => dps.map (·.attributes)
  | .sum dps => dps.map (·.attributes)
  | .histogram dps => dps.map (·.attributes)
  | .exponentialHistogram dps => dps.map (·.attributes)
  | .summary dps => dps.map (·.attributes)
  | .empty => []

end AwsAppSignals

namespace Ec2TaggerProcessor

/-! ## ec2tagger translator
(`translator/translate/otel/processor/ec2taggerprocessor/translator.go`) -/

/-- `confmap.Conf` flattened: leaf path (segments joined with `::`) to
string value. -/
abbrev Conf := List (String × String)

/-- `common.ConfigKey`: join key segments with `::`. -/
def configKey (keys : List String) : String := String.intercalate "::" keys

/-- `confmap.Conf.IsSet`: the key is a leaf of the map or an inner node with
entries below it (the prefix test is on the character lists, which is what
string prefix means). -/
def isSet (conf : Conf) (key : String) : Bool :=
  conf.any (fun kv => kv.1 == key || (key ++ "::").data.isPrefixOf kv.1.data)

/-- `common.GetString`: the string value at a leaf key, if present. -/
def getString (conf : Conf) (key : String) : Option String :=
  conf.lookup key

/-- The fields of `ec2tagger.Config` the translator writes. -/
structure Ec2TaggerConfig where
  refreshTagsInterval : Nat
  refreshVolumesInterval : Nat
  ec2MetadataTags : List String
  ec2InstanceTagKeys : List String
  ebsDeviceKeys : List String
  diskDeviceTagKey : String
  middlewareID : Option String
  imdsRetries : Nat
deriving DecidableEq, Repr

/-- `common.MissingKeyError`. -/
structure MissingKeyError where
  id : String
  jsonKey : String
deriving DecidableEq, Repr

/-- Decidable equality of translation results, so concrete runs of
`Translate` can be checked by evaluation. -/
instance exceptDecEq {e a : Type} [DecidableEq e] [DecidableEq a] :
    DecidableEq (Except e a) := fun x y =>
  match x, y with
  | .error u, .error v =>
    if h : u = v then .isTrue (by rw [h])
    else .isFalse (fun hc => h (Except.error.inj hc))
  | .ok u, .ok v =>
    if h : u = v then .isTrue (by rw [h])
    else .isFalse (fun hc => h (Except.ok.inj hc))
  | .error _, .ok _ => .isFalse (fun hc => Except.noConfusion hc)
  | .ok _, .error _ => .isFalse (fun hc => Except.noConfusion hc)

/-- `5 * time.Minute` in nanoseconds. -/
def fiveMinutes : Nat := 5 * 60 * 1000000000

/-- Modelled from the spec: everything `Translate` imports from packages
outside this source slice — the `common` key constants, the `ec2tagger`
plugin's constants, default config and supported append-dimensions map, the
global credentials unmarshalling, the agent-health middleware id and the
retryer's default retry number.  The spec leaves all of these at the
interface boundary, so they are parameters; the claims hold for every
value. -/
structure ExternalDeps where
  metricsKey : String
  appendDimensionsKey : String
  metricsCollectedKey : String
  diskKey : String
  attributeVolumeId : String
  valueAppendDimensionVolumeId : String
  supportedAppendDimensions : List (String × String)
  defaultConfig : Ec2TaggerConfig
  unmarshalCredentials : Ec2TaggerConfig → Ec2TaggerConfig
  statusCodeID : String
  defaultRetryNumber : Nat
  translatorID : String

/-- `Ec2taggerKey = common.ConfigKey(common.MetricsKey,
common.AppendDimensionsKey)`. -/
def ec2taggerKey (x : ExternalDeps) : String :=
  configKey [x.metricsKey, x.appendDimensionsKey]

/-- The key of the disk volume-id append-dimension:
`common.ConfigKey(common.MetricsKey, common.MetricsCollectedKey,
common.DiskKey, common.AppendDimensionsKey, ec2tagger.AttributeVolumeId)`. -/
def diskVolumeIdKey (x : ExternalDeps) : String :=
  configKey [x.metricsKey, x.metricsCollectedKey, x.diskKey,
    x.appendDimensionsKey, x.attributeVolumeId]

/-- `translator.Translate`: nil conf or unset append-dimensions key yields a
`MissingKeyError`; otherwise build the config from the default, unmarshal the
global credentials, collect supported append dimensions, force
`RefreshTagsInterval`/`RefreshVolumesInterval` to zero, and enable volume
refresh only for a matching disk volume-id append-dimension. -/
def Translate (x : ExternalDeps) (conf : Option Conf) :
    Except MissingKeyError Ec2TaggerConfig :=
  match conf with
  | none => .error ⟨x.translatorID, ec2taggerKey x⟩
  | some c =>
    if ! isSet c (ec2taggerKey x) then .error ⟨x.translatorID, ec2taggerKey x⟩
    else
      let cfg := x.unmarshalCredentials x.defaultConfig
      let cfg := x.supportedAppendDimensions.foldl (fun cfg kv =>
        match getString c (configKey [ec2taggerKey x, kv.1]) with
        | some value =>
          if kv.2 == value then
            if kv.1 == "AutoScalingGroupName" then
              { cfg with ec2InstanceTagKeys := cfg.ec2InstanceTagKeys ++ [kv.1] }
            else
              { cfg with ec2MetadataTags := cfg.ec2MetadataTags ++ [kv.1] }
          else cfg
        | none => cfg) cfg
      let cfg := { cfg with refreshTagsInterval := 0 }
      let cfg := { cfg with refreshVolumesInterval := 0 }
      let cfg :=
        match getString c (diskVolumeIdKey x) with
        | some value =>
          if value == x.valueAppendDimensionVolumeId then
            { cfg with refreshVolumesInterval := fiveMinutes,
                       ebsDeviceKeys := ["*"],
                       diskDeviceTagKey := "device" }
          else cfg
        | none => cfg
      let cfg := { cfg with middlewareID := some x.statusCodeID }
      let cfg := { cfg with imdsRetries := x.defaultRetryNumber }
      .ok cfg

end Ec2TaggerProcessor

/-! # Helper lemmas -/

namespace AwsAppSignals

/-- The `RemoveIf` closure's verdict is the disjunction of the boolean
verdicts of the allow-list mutators; the error components play no role. -/
lemma shouldDropDataPoint_eq_any (ms : List AllowListMutator) (attrs : AttrMap) :
    shouldDropDataPoint ms attrs = ms.any (fun m => (m attrs).1) := by
  induction ms with
  | nil => rfl
  | cons m rest ih => cases h : (m attrs).1 <;> simp [shouldDropDataPoint, h, ih]

lemma shutdown_foldl (stoppers : List Stopper) (init : List String) :
    stoppers.foldl (fun log st =>
        match st () with
        | some e => log ++ [e]
        | none => log) init
      = init ++ stoppers.filterMap (fun st => st ()) := by
  induction stoppers generalizing init with
  | nil => simp
  | cons s rest ih => cases h : s () <;> simp [h, ih]

end AwsAppSignals

/-! # Claim theorems: wiring, shutdown, filter-phase error handling -/

namespace AwsAppSignals

/-- C3: `Start` always returns a nil error and leaves exactly these chains:
trace mutators `[Resolver, Normalizer, Replacer]`, metric mutate-phase
mutators `[Resolver, Normalizer]`, filter phase `[Keeper, Dropper]`, replace
phase the Replacer, stoppers `[Resolver]`; moreover `Start` is extensionally
the same as `StartEffective`, its variant without the one-element
`metricMutators` assignment, so that dead assignment has no observable effect
on any later `processTraces` / `processMetrics` call. -/
theorem start_builds_exact_chains (attributesResolver : AttributesMutator)
    (resolverStopper : Stopper) (attributesNormalizer replacer : AttributesMutator)
    (keeper dropper : AllowListMutator) (ap : ProcessorState) (td : Traces)
    (md : Metrics) :
    Start attributesResolver resolverStopper attributesNormalizer replacer
        keeper dropper ap =
      ({ ap with
          replaceActions := replacer,
          allowlistMutators := [keeper, dropper],
          metricMutators := [attributesResolver, attributesNormalizer],
          traceMutators := [attributesResolver, attributesNormalizer, replacer],
          stoppers := [resolverStopper] }, none) ∧
    Start attributesResolver resolverStopper attributesNormalizer replacer
        keeper dropper ap =
      StartEffective attributesResolver resolverStopper attributesNormalizer
        replacer keeper dropper ap ∧
    processTraces (Start attributesResolver resolverStopper attributesNormalizer
        replacer keeper dropper ap).1 td =
      processTraces (StartEffective attributesResolver resolverStopper
        attributesNormalizer replacer keeper dropper ap).1 td ∧
    processMetrics (Start attributesResolver resolverStopper attributesNormalizer
        replacer keeper dropper ap).1 md =
      processMetrics (StartEffective attributesResolver resolverStopper
        attributesNormalizer replacer keeper dropper ap).1 md :=
  ⟨rfl, rfl, rfl, rfl⟩

/-- C8: `Shutdown` returns a nil error, and its log records the error of
every failing stopper, in registration order — every registered stopper's
`Stop` is invoked, regardless of earlier failures, and no failure is
propagated. -/
theorem shutdown_attempts_every_stopper (ap : ProcessorState) :
    Shutdown ap = (ap.stoppers.filterMap (fun st => st ()), none) := by
  unfold Shutdown
  rw [shutdown_foldl]
  simp

/-- C2: the filter phase's verdict for a datapoint is exactly the
disjunction of the boolean verdicts of the allow-list mutators whose calls
returned no error, provided every mutator fails open (never answers drop
together with a non-nil error, which is how the rule engine is specified);
in particular, when every mutator call on the datapoint errors, the
datapoint is not removed — an evaluation error alone never causes removal. -/
theorem filter_error_fail_open (ms : List AllowListMutator) (attrs : AttrMap)
    (hfo : ∀ m ∈ ms, ((m attrs).2).isSome → (m attrs).1 = false) :
    shouldDropDataPoint ms attrs =
      ms.any (fun m => (m attrs).1 && ((m attrs).2).isNone) ∧
    ((∀ m ∈ ms, ((m attrs).2).isSome) → shouldDropDataPoint ms attrs = false) := by
  constructor
  · rw [shouldDropDataPoint_eq_any]
    induction ms with
    | nil => rfl
    | cons m rest ih =>
      have hm := hfo m (by simp)
      have hrest : ∀ m' ∈ rest, ((m' attrs).2).isSome → (m' attrs).1 = false :=
        fun m' h => hfo m' (by simp [h])
      simp only [List.any_cons, ih hrest]
      cases h2 : ((m attrs).2).isSome with
      | true => simp [hm h2, Option.isNone_iff_eq_none]
      | false =>
        have : ((m attrs).2).isNone = true := by
          cases h : (m attrs).2 <;> simp_all
        simp [this]
  · intro hall
    rw [shouldDropDataPoint_eq_any]
    refine List.any_eq_false.mpr ?_
    intro m hm
    simp [hfo m hm (hall m hm)]

/-- C2 witness: a single allow-list mutator that errors (returning the
fail-open verdict) does not cause the datapoint to be dropped. -/
theorem filter_error_fail_open_witness :
    shouldDropDataPoint [fun _ => (false, some "lookup failed")] [("ip", "10.0.0.5")]
      = false := by
  refine (filter_error_fail_open [fun _ => (false, some "lookup failed")]
    [("ip", "10.0.0.5")] ?_).2 ?_
  · intro m hm
    simp only [List.mem_singleton] at hm
    subst hm
    intro
    rfl
  · intro m hm
    simp only [List.mem_singleton] at hm
    subst hm
    rfl

end AwsAppSignals

namespace AwsAppSignals

/-- C1 counterexample: with one Keeper allow-rule and one Dropper deny-rule
both matching the datapoint, the filter phase removes the datapoint — the
allow-list verdict does not take precedence over the Dropper's.  The
processor is wired by `Start` exactly as in the source
(`allowlistMutators = [keeper, dropper]`). -/
theorem keeper_precedence_counterexample :
    (let keepRules := [FilterRule.mk [Selector.mk "Service" "app"]]
     let dropRules := [FilterRule.mk [Selector.mk "Service" "app"]]
     let ap := (Start idMutator (fun _ => none) idMutator idMutator
       (keeperShouldBeDropped keepRules) (dropperShouldBeDropped dropRules)
       initialState).1
     ruleMatches (FilterRule.mk [Selector.mk "Service" "app"]) [("Service", "app")]
         = true ∧
     (keeperShouldBeDropped keepRules [("Service", "app")]).1 = false ∧
     processMetricAttributes ap ⟨"latency", .gauge [⟨[("Service", "app")], 7⟩]⟩ []
       = (⟨"latency", .gauge []⟩, [])) := by
  exact ⟨rfl, rfl, rfl⟩

/-- C1 amended: when a datapoint matches at least one configured Keeper
allow-rule, the Keeper itself does not vote to drop it, but the Dropper is
still consulted and its verdict decides: the filter phase drops the
datapoint iff some deny-rule matches it. -/
theorem keeper_match_dropper_decides (keepRules dropRules : List FilterRule)
    (attrs : AttrMap) (h : ∃ rule ∈ keepRules, ruleMatches rule attrs = true) :
    (keeperShouldBeDropped keepRules attrs).1 = false ∧
    shouldDropDataPoint
        [keeperShouldBeDropped keepRules, dropperShouldBeDropped dropRules] attrs
      = dropRules.any (fun rule => ruleMatches rule attrs) := by
  have hne : keepRules.isEmpty = false := by
    rcases h with ⟨rule, hmem, _⟩
    cases keepRules with
    | nil => cases hmem
    | cons a l => rfl
  have hany : keepRules.any (fun rule => ruleMatches rule attrs) = true := by
    rcases h with ⟨rule, hmem, hmatch⟩
    exact List.any_eq_true.mpr ⟨rule, hmem, hmatch⟩
  have hk : (keeperShouldBeDropped keepRules attrs).1 = false := by
    simp [keeperShouldBeDropped, hne, hany]
  refine ⟨hk, ?_⟩
  rw [shouldDropDataPoint_eq_any]
  simp [hk, dropperShouldBeDropped]

/-- C1 amended witness: a datapoint matching an allow-rule, with a deny-rule
that does not match, survives the filter verdict. -/
theorem keeper_match_dropper_decides_witness :
    (keeperShouldBeDropped [FilterRule.mk [Selector.mk "Service" "app"]]
        [("Service", "app")]).1 = false ∧
    shouldDropDataPoint
        [keeperShouldBeDropped [FilterRule.mk [Selector.mk "Service" "app"]],
         dropperShouldBeDropped [FilterRule.mk [Selector.mk "Service" "other"]]]
        [("Service", "app")] = false := by
  have h := keeper_match_dropper_decides
    [FilterRule.mk [Selector.mk "Service" "app"]]
    [FilterRule.mk [Selector.mk "Service" "other"]]
    [("Service", "app")]
    ⟨FilterRule.mk [Selector.mk "Service" "app"], by simp, by decide⟩
  exact ⟨h.1, by rw [h.2]; decide⟩

end AwsAppSignals

namespace AwsAppSignals

/-! ## Length lemmas for the metric phases -/

lemma length_filter_not_eq_sub {α : Type} (l : List α) (p : α → Bool) :
    (l.filter (fun a => ! p a)).length = l.length - l.countP p := by
  induction l with
  | nil => rfl
  | cons a t ih =>
    have hle : t.countP p ≤ t.length := List.countP_le_length p
    by_cases h : p a
    · simp [List.countP_cons, h, ih, List.length_cons]
    · simp [List.countP_cons, h, ih, List.length_cons]
      omega

lemma mutateNumberDataPoints_length (ms : List AttributesMutator)
    (dps : List NumberDataPoint) (r : AttrMap) :
    (mutateNumberDataPoints ms dps r).1.length = dps.length := by
  induction dps generalizing r with
  | nil => rfl
  | cons dp rest ih => simp [mutateNumberDataPoints, ih]

lemma mutateHistogramDataPoints_length (ms : List AttributesMutator)
    (dps : List HistogramDataPoint) (r : AttrMap) :
    (mutateHistogramDataPoints ms dps r).1.length = dps.length := by
  induction dps generalizing r with
  | nil => rfl
  | cons dp rest ih => simp [mutateHistogramDataPoints, ih]

lemma mutateExponentialHistogramDataPoints_length (ms : List AttributesMutator)
    (dps : List ExponentialHistogramDataPoint) (r : AttrMap) :
    (mutateExponentialHistogramDataPoints ms dps r).1.length = dps.length := by
  induction dps generalizing r with
  | nil => rfl
  | cons dp rest ih => simp [mutateExponentialHistogramDataPoints, ih]

lemma mutateSummaryDataPoints_length (ms : List AttributesMutator)
    (dps : List SummaryDataPoint) (r : AttrMap) :
    (mutateSummaryDataPoints ms dps r).1.length = dps.length := by
  induction dps generalizing r with
  | nil => rfl
  | cons dp rest ih => simp [mutateSummaryDataPoints, ih]

lemma replaceNumberDataPoints_length (rep : AttributesMutator)
    (dps : List NumberDataPoint) (r : AttrMap) :
    (replaceNumberDataPoints rep dps r).1.length = dps.length := by
  induction dps generalizing r with
  | nil => rfl
  | cons dp rest ih => simp [replaceNumberDataPoints, ih]

lemma replaceHistogramDataPoints_length (rep : AttributesMutator)
    (dps : List HistogramDataPoint) (r : AttrMap) :
    (replaceHistogramDataPoints rep dps r).1.length = dps.length := by
  induction dps generalizing r with
  | nil => rfl
  | cons dp rest ih => simp [replaceHistogramDataPoints, ih]

lemma replaceExponentialHistogramDataPoints_length (rep : AttributesMutator)
    (dps : List ExponentialHistogramDataPoint) (r : AttrMap) :
    (replaceExponentialHistogramDataPoints rep dps r).1.length = dps.length := by
  induction dps generalizing r with
  | nil => rfl
  | cons dp rest ih => simp [replaceExponentialHistogramDataPoints, ih]

lemma replaceSummaryDataPoints_length (rep : AttributesMutator)
    (dps : List SummaryDataPoint) (r : AttrMap) :
    (replaceSummaryDataPoints rep dps r).1.length = dps.length := by
  induction dps generalizing r with
  | nil => rfl
  | cons dp rest ih => simp [replaceSummaryDataPoints, ih]

end AwsAppSignals

namespace AwsAppSignals

lemma processNumberDataPoints_length (ms : List AttributesMutator)
    (al : List AllowListMutator) (rep : AttributesMutator)
    (dps : List NumberDataPoint) (r : AttrMap) :
    (processNumberDataPoints ms al rep dps r).1.length =
      dps.length - (mutateNumberDataPoints ms dps r).1.countP
        (fun d => shouldDropDataPoint al d.attributes) := by
  unfold processNumberDataPoints
  rw [replaceNumberDataPoints_length, length_filter_not_eq_sub,
    mutateNumberDataPoints_length]

lemma processHistogramDataPoints_length (ms : List AttributesMutator)
    (al : List AllowListMutator) (rep : AttributesMutator)
    (dps : List HistogramDataPoint) (r : AttrMap) :
    (processHistogramDataPoints ms al rep dps r).1.length =
      dps.length - (mutateHistogramDataPoints ms dps r).1.countP
        (fun d => shouldDropDataPoint al d.attributes) := by
  unfold processHistogramDataPoints
  rw [replaceHistogramDataPoints_length, length_filter_not_eq_sub,
    mutateHistogramDataPoints_length]

lemma processExponentialHistogramDataPoints_length (ms : List AttributesMutator)
    (al : List AllowListMutator) (rep : AttributesMutator)
    (dps : List ExponentialHistogramDataPoint) (r : AttrMap) :
    (processExponentialHistogramDataPoints ms al rep dps r).1.length =
      dps.length - (mutateExponentialHistogramDataPoints ms dps r).1.countP
        (fun d => shouldDropDataPoint al d.attributes) := by
  unfold processExponentialHistogramDataPoints
  rw [replaceExponentialHistogramDataPoints_length, length_filter_not_eq_sub,
    mutateExponentialHistogramDataPoints_length]

lemma processSummaryDataPoints_length (ms : List AttributesMutator)
    (al : List AllowListMutator) (rep : AttributesMutator)
    (dps : List SummaryDataPoint) (r : AttrMap) :
    (processSummaryDataPoints ms al rep dps r).1.length =
      dps.length - (mutateSummaryDataPoints ms dps r).1.countP
        (fun d => shouldDropDataPoint al d.attributes) := by
  unfold processSummaryDataPoints
  rw [replaceSummaryDataPoints_length, length_filter_not_eq_sub,
    mutateSummaryDataPoints_length]

end AwsAppSignals

namespace AwsAppSignals

/-- C4: for every recognized datapoint kind, `processMetricAttributes` is the
sequenced composition mutate-then-filter-then-replace over that kind's
datapoint collection — the replace phase runs exactly on the filtered
survivors of the mutated datapoints — and the number of surviving datapoints
is the datapoint count minus the number of mutated datapoints the filter
phase votes to drop. -/
theorem mutate_filter_replace_order (ap : ProcessorState) (name : String)
    (res : AttrMap) (gdps sdps : List NumberDataPoint)
    (hdps : List HistogramDataPoint) (edps : List ExponentialHistogramDataPoint)
    (smdps : List SummaryDataPoint) :
    (processMetricAttributes ap ⟨name, .gauge gdps⟩ res =
      (let p := mutateNumberDataPoints ap.metricMutators gdps res
       let q := replaceNumberDataPoints ap.replaceActions
         (p.1.filter (fun d => ! shouldDropDataPoint ap.allowlistMutators d.attributes)) p.2
       (⟨name, .gauge q.1⟩, q.2))) ∧
    (metricAttrs (processMetricAttributes ap ⟨name, .gauge gdps⟩ res).1).length =
      gdps.length - (mutateNumberDataPoints ap.metricMutators gdps res).1.countP
        (fun d => shouldDropDataPoint ap.allowlistMutators d.attributes) ∧
    (processMetricAttributes ap ⟨name, .sum sdps⟩ res =
      (let p := mutateNumberDataPoints ap.metricMutators sdps res
       let q := replaceNumberDataPoints ap.replaceActions
         (p.1.filter (fun d => ! shouldDropDataPoint ap.allowlistMutators d.attributes)) p.2
       (⟨name, .sum q.1⟩, q.2))) ∧
    (metricAttrs (processMetricAttributes ap ⟨name, .sum sdps⟩ res).1).length =
      sdps.length - (mutateNumberDataPoints ap.metricMutators sdps res).1.countP
        (fun d => shouldDropDataPoint ap.allowlistMutators d.attributes) ∧
    (processMetricAttributes ap ⟨name, .histogram hdps⟩ res =
      (let p := mutateHistogramDataPoints ap.metricMutators hdps res
       let q := replaceHistogramDataPoints ap.replaceActions
         (p.1.filter (fun d => ! shouldDropDataPoint ap.allowlistMutators d.attributes)) p.2
       (⟨name, .histogram q.1⟩, q.2))) ∧
    (metricAttrs (processMetricAttributes ap ⟨name, .histogram hdps⟩ res).1).length =
      hdps.length - (mutateHistogramDataPoints ap.metricMutators hdps res).1.countP
        (fun d => shouldDropDataPoint ap.allowlistMutators d.attributes) ∧
    (processMetricAttributes ap ⟨name, .exponentialHistogram edps⟩ res =
      (let p := mutateExponentialHistogramDataPoints ap.metricMutators edps res
       let q := replaceExponentialHistogramDataPoints ap.replaceActions
         (p.1.filter (fun d => ! shouldDropDataPoint ap.allowlistMutators d.attributes)) p.2
       (⟨name, .exponentialHistogram q.1⟩, q.2))) ∧
    (metricAttrs (processMetricAttributes ap ⟨name, .exponentialHistogram edps⟩ res).1).length =
      edps.length -
        (mutateExponentialHistogramDataPoints ap.metricMutators edps res).1.countP
          (fun d => shouldDropDataPoint ap.allowlistMutators d.attributes) ∧
    (processMetricAttributes ap ⟨name, .summary smdps⟩ res =
      (let p := mutateSummaryDataPoints ap.metricMutators smdps res
       let q := replaceSummaryDataPoints ap.replaceActions
         (p.1.filter (fun d => ! shouldDropDataPoint ap.allowlistMutators d.attributes)) p.2
       (⟨name, .summary q.1⟩, q.2))) ∧
    (metricAttrs (processMetricAttributes ap ⟨name, .summary smdps⟩ res).1).length =
      smdps.length - (mutateSummaryDataPoints ap.metricMutators smdps res).1.countP
        (fun d => shouldDropDataPoint ap.allowlistMutators d.attributes) := by
  refine ⟨rfl, ?_, rfl, ?_, rfl, ?_, rfl, ?_, rfl, ?_⟩
  · show ((processNumberDataPoints ap.metricMutators ap.allowlistMutators
      ap.replaceActions gdps res).1.map (·.attributes)).length = _
    rw [List.length_map, processNumberDataPoints_length]
  · show ((processNumberDataPoints ap.metricMutators ap.allowlistMutators
      ap.replaceActions sdps res).1.map (·.attributes)).length = _
    rw [List.length_map, processNumberDataPoints_length]
  · show ((processHistogramDataPoints ap.metricMutators ap.allowlistMutators
      ap.replaceActions hdps res).1.map (·.attributes)).length = _
    rw [List.length_map, processHistogramDataPoints_length]
  · show ((processExponentialHistogramDataPoints ap.metricMutators ap.allowlistMutators
      ap.replaceActions edps res).1.map (·.attributes)).length = _
    rw [List.length_map, processExponentialHistogramDataPoints_length]
  · show ((processSummaryDataPoints ap.metricMutators ap.allowlistMutators
      ap.replaceActions smdps res).1.map (·.attributes)).length = _
    rw [List.length_map, processSummaryDataPoints_length]

end AwsAppSignals

namespace AwsAppSignals

lemma processSpans_length (ms : List AttributesMutator) (spans : List Span)
    (r : AttrMap) : (processSpans ms spans r).1.length = spans.length := by
  induction spans generalizing r with
  | nil => rfl
  | cons sp rest ih => simp [processSpans, ih]

lemma processScopeSpansList_shape (ms : List AttributesMutator)
    (scopes : List ScopeSpans) (r : AttrMap) :
    (processScopeSpansList ms scopes r).1.map (fun ss => ss.spans.length) =
      scopes.map (fun ss => ss.spans.length) := by
  induction scopes generalizing r with
  | nil => rfl
  | cons ss rest ih => simp [processScopeSpansList, ih, processSpans_length]

/-- C9: `processTraces` removes no telemetry unit: the number of resource
spans, the number of scope spans inside each resource, and the number of
spans inside each scope are all unchanged (stated as equality of the full
nested span-count shape, which forces all three counts). -/
theorem processTraces_drops_nothing (ap : ProcessorState) (td : Traces) :
    (processTraces ap td).1.map
        (fun rs => rs.scopeSpans.map (fun ss => ss.spans.length)) =
      td.map (fun rs => rs.scopeSpans.map (fun ss => ss.spans.length)) := by
  unfold processTraces
  simp only [List.map_map]
  refine List.map_congr_left ?_
  intro rs _
  simp [Function.comp, processScopeSpansList_shape]

end AwsAppSignals

namespace AwsAppSignals

/-! ## Resource preservation lemmas -/

lemma applyMutators_cons (m : AttributesMutator) (ms : List AttributesMutator)
    (t : Bool) (a r : AttrMap) :
    applyMutators (m :: ms) t a r =
      applyMutators ms t (m a r t).attrs (m a r t).resource := rfl

lemma applyMutators_resource (ms : List AttributesMutator) (t : Bool)
    (h : ∀ m ∈ ms, PreservesResource m) :
    ∀ a r, (applyMutators ms t a r).2 = r := by
  induction ms with
  | nil => intro a r; rfl
  | cons m rest ih =>
    intro a r
    rw [applyMutators_cons, ih (fun m' hm' => h m' (by simp [hm']))]
    exact h m (by simp) a r t

lemma processSpans_resource (ms : List AttributesMutator)
    (h : ∀ m ∈ ms, PreservesResource m) :
    ∀ spans r, (processSpans ms spans r).2 = r := by
  intro spans
  induction spans with
  | nil => intro r; rfl
  | cons sp rest ih =>
    intro r
    simp [processSpans, ih, applyMutators_resource ms true h]

lemma processScopeSpansList_resource (ms : List AttributesMutator)
    (h : ∀ m ∈ ms, PreservesResource m) :
    ∀ scopes r, (processScopeSpansList ms scopes r).2 = r := by
  intro scopes
  induction scopes with
  | nil => intro r; rfl
  | cons ss rest ih =>
    intro r
    simp [processScopeSpansList, ih, processSpans_resource ms h]

lemma mutateNumberDataPoints_resource (ms : List AttributesMutator)
    (h : ∀ m ∈ ms, PreservesResource m) :
    ∀ dps r, (mutateNumberDataPoints ms dps r).2 = r := by
  intro dps
  induction dps with
  | nil => intro r; rfl
  | cons dp rest ih =>
    intro r
    simp [mutateNumberDataPoints, ih, applyMutators_resource ms false h]

lemma mutateHistogramDataPoints_resource (ms : List AttributesMutator)
    (h : ∀ m ∈ ms, PreservesResource m) :
    ∀ dps r, (mutateHistogramDataPoints ms dps r).2 = r := by
  intro dps
  induction dps with
  | nil => intro r; rfl
  | cons dp rest ih =>
    intro r
    simp [mutateHistogramDataPoints, ih, applyMutators_resource ms false h]

lemma mutateExponentialHistogramDataPoints_resource (ms : List AttributesMutator)
    (h : ∀ m ∈ ms, PreservesResource m) :
    ∀ dps r, (mutateExponentialHistogramDataPoints ms dps r).2 = r := by
  intro dps
  induction dps with
  | nil => intro r; rfl
  | cons dp rest ih =>
    intro r
    simp [mutateExponentialHistogramDataPoints, ih, applyMutators_resource ms false h]

lemma mutateSummaryDataPoints_resource (ms : List AttributesMutator)
    (h : ∀ m ∈ ms, PreservesResource m) :
    ∀ dps r, (mutateSummaryDataPoints ms dps r).2 = r := by
  intro dps
  induction dps with
  | nil => intro r; rfl
  | cons dp rest ih =>
    intro r
    simp [mutateSummaryDataPoints, ih, applyMutators_resource ms false h]

lemma replaceNumberDataPoints_resource (rep : AttributesMutator)
    (h : PreservesResource rep) :
    ∀ dps r, (replaceNumberDataPoints rep dps r).2 = r := by
  intro dps
  induction dps with
  | nil => intro r; rfl
  | cons dp rest ih =>
    intro r
    simp [replaceNumberDataPoints, ih, h dp.attributes r false]

lemma replaceHistogramDataPoints_resource (rep : AttributesMutator)
    (h : PreservesResource rep) :
    ∀ dps r, (replaceHistogramDataPoints rep dps r).2 = r := by
  intro dps
  induction dps with
  | nil => intro r; rfl
  | cons dp rest ih =>
    intro r
    simp [replaceHistogramDataPoints, ih, h dp.attributes r false]

lemma replaceExponentialHistogramDataPoints_resource (rep : AttributesMutator)
    (h : PreservesResource rep) :
    ∀ dps r, (replaceExponentialHistogramDataPoints rep dps r).2 = r := by
  intro dps
  induction dps with
  | nil => intro r; rfl
  | cons dp rest ih =>
    intro r
    simp [replaceExponentialHistogramDataPoints, ih, h dp.attributes r false]

lemma replaceSummaryDataPoints_resource (rep : AttributesMutator)
    (h : PreservesResource rep) :
    ∀ dps r, (replaceSummaryDataPoints rep dps r).2 = r := by
  intro dps
  induction dps with
  | nil => intro r; rfl
  | cons dp rest ih =>
    intro r
    simp [replaceSummaryDataPoints, ih, h dp.attributes r false]

lemma processMetricAttributes_resource (ap : ProcessorState)
    (h2 : ∀ m ∈ ap.metricMutators, PreservesResource m)
    (h3 : PreservesResource ap.replaceActions) (m : Metric) (r : AttrMap) :
    (processMetricAttributes ap m r).2 = r := by
  cases hm : m.data with
  | gauge dps =>
    simp [processMetricAttributes, hm, processNumberDataPoints,
      replaceNumberDataPoints_resource ap.replaceActions h3,
      mutateNumberDataPoints_resource ap.metricMutators h2]
  | sum dps =>
    simp [processMetricAttributes, hm, processNumberDataPoints,
      replaceNumberDataPoints_resource ap.replaceActions h3,
      mutateNumberDataPoints_resource ap.metricMutators h2]
  | histogram dps =>
    simp [processMetricAttributes, hm, processHistogramDataPoints,
      replaceHistogramDataPoints_resource ap.replaceActions h3,
      mutateHistogramDataPoints_resource ap.metricMutators h2]
  | exponentialHistogram dps =>
    simp [processMetricAttributes, hm, processExponentialHistogramDataPoints,
      replaceExponentialHistogramDataPoints_resource ap.replaceActions h3,
      mutateExponentialHistogramDataPoints_resource ap.metricMutators h2]
  | summary dps =>
    simp [processMetricAttributes, hm, processSummaryDataPoints,
      replaceSummaryDataPoints_resource ap.replaceActions h3,
      mutateSummaryDataPoints_resource ap.metricMutators h2]
  | empty => simp [processMetricAttributes, hm]

lemma processMetricsInScope_resource (ap : ProcessorState)
    (h2 : ∀ m ∈ ap.metricMutators, PreservesResource m)
    (h3 : PreservesResource ap.replaceActions) :
    ∀ ms r, (processMetricsInScope ap ms r).2 = r := by
  intro ms
  induction ms with
  | nil => intro r; rfl
  | cons m rest ih =>
    intro r
    simp [processMetricsInScope, ih, processMetricAttributes_resource ap h2 h3]

lemma processScopeMetricsList_resource (ap : ProcessorState)
    (h2 : ∀ m ∈ ap.metricMutators, PreservesResource m)
    (h3 : PreservesResource ap.replaceActions) :
    ∀ scopes r, (processScopeMetricsList ap scopes r).2 = r := by
  intro scopes
  induction scopes with
  | nil => intro r; rfl
  | cons sm rest ih =>
    intro r
    simp [processScopeMetricsList, ih, processMetricsInScope_resource ap h2 h3]

/-- C5: neither `processTraces` nor `processMetrics` mutates any resource
attribute set, under the hypothesis that every chained mutator's `Process`
leaves its `resourceAttributes` argument unchanged. -/
theorem resource_attributes_never_mutated (ap : ProcessorState) (td : Traces)
    (md : Metrics)
    (h1 : ∀ m ∈ ap.traceMutators, PreservesResource m)
    (h2 : ∀ m ∈ ap.metricMutators, PreservesResource m)
    (h3 : PreservesResource ap.replaceActions) :
    (processTraces ap td).1.map (fun rs => rs.resourceAttributes) =
      td.map (fun rs => rs.resourceAttributes) ∧
    (processMetrics ap md).1.map (fun rm => rm.resourceAttributes) =
      md.map (fun rm => rm.resourceAttributes) := by
  constructor
  · unfold processTraces
    simp only [List.map_map]
    refine List.map_congr_left ?_
    intro rs _
    simp [Function.comp, processScopeSpansList_resource ap.traceMutators h1]
  · unfold processMetrics
    simp only [List.map_map]
    refine List.map_congr_left ?_
    intro rm _
    simp [Function.comp, processScopeMetricsList_resource ap h2 h3]

/-- C5 witness: a concrete processor wired by `Start` from resource-preserving
mutators leaves the resource attributes of a concrete trace and metric batch
unchanged. -/
theorem resource_attributes_never_mutated_witness :
    (let ap := (Start idMutator (fun _ => none) idMutator idMutator
      (keeperShouldBeDropped []) (dropperShouldBeDropped []) initialState).1
     let td : Traces := [⟨[("host", "h1")], [⟨[⟨"sp", [("ip", "10.0.0.5")]⟩]⟩]⟩]
     let md : Metrics :=
       [⟨[("host", "h2")], [⟨[⟨"m", .gauge [⟨[("ip", "10.0.0.9")], 3⟩]⟩]⟩]⟩]
     (processTraces ap td).1.map (fun rs => rs.resourceAttributes) =
       td.map (fun rs => rs.resourceAttributes) ∧
     (processMetrics ap md).1.map (fun rm => rm.resourceAttributes) =
       md.map (fun rm => rm.resourceAttributes)) := by
  refine resource_attributes_never_mutated _ _ _ ?_ ?_ ?_
  · intro m hm
    simp only [Start, List.mem_cons, List.mem_singleton] at hm
    rcases hm with h | h | h | h
    all_goals first
      | (subst h; intro a r t; rfl)
      | cases h
  · intro m hm
    simp only [Start, List.mem_cons, List.mem_singleton] at hm
    rcases hm with h | h | h
    all_goals first
      | (subst h; intro a r t; rfl)
      | cases h
  · intro a r t; rfl

end AwsAppSignals

namespace AwsAppSignals

/-! ## Error-erasure lemmas: mutator errors never influence results -/

lemma applyMutators_erase (ms : List AttributesMutator) (t : Bool) :
    ∀ a r, applyMutators (ms.map eraseMutatorErr) t a r = applyMutators ms t a r := by
  induction ms with
  | nil => intro a r; rfl
  | cons m rest ih =>
    intro a r
    rw [List.map_cons, applyMutators_cons, applyMutators_cons]
    exact ih (eraseMutatorErr m a r t).attrs (eraseMutatorErr m a r t).resource

lemma shouldDropDataPoint_erase (ms : List AllowListMutator) (attrs : AttrMap) :
    shouldDropDataPoint (ms.map eraseAllowErr) attrs = shouldDropDataPoint ms attrs := by
  rw [shouldDropDataPoint_eq_any, shouldDropDataPoint_eq_any, List.any_map]
  rfl

lemma processSpans_erase (ms : List AttributesMutator) :
    ∀ spans r, processSpans (ms.map eraseMutatorErr) spans r = processSpans ms spans r := by
  intro spans
  induction spans with
  | nil => intro r; rfl
  | cons sp rest ih =>
    intro r
    simp [processSpans, applyMutators_erase, ih]

lemma processScopeSpansList_erase (ms : List AttributesMutator) :
    ∀ scopes r,
      processScopeSpansList (ms.map eraseMutatorErr) scopes r =
        processScopeSpansList ms scopes r := by
  intro scopes
  induction scopes with
  | nil => intro r; rfl
  | cons ss rest ih =>
    intro r
    simp [processScopeSpansList, processSpans_erase, ih]

lemma mutateNumberDataPoints_erase (ms : List AttributesMutator) :
    ∀ dps r,
      mutateNumberDataPoints (ms.map eraseMutatorErr) dps r =
        mutateNumberDataPoints ms dps r := by
  intro dps
  induction dps with
  | nil => intro r; rfl
  | cons dp rest ih =>
    intro r
    simp [mutateNumberDataPoints, applyMutators_erase, ih]

lemma mutateHistogramDataPoints_erase (ms : List AttributesMutator) :
    ∀ dps r,
      mutateHistogramDataPoints (ms.map eraseMutatorErr) dps r =
        mutateHistogramDataPoints ms dps r := by
  intro dps
  induction dps with
  | nil => intro r; rfl
  | cons dp rest ih =>
    intro r
    simp [mutateHistogramDataPoints, applyMutators_erase, ih]

lemma mutateExponentialHistogramDataPoints_erase (ms : List AttributesMutator) :
    ∀ dps r,
      mutateExponentialHistogramDataPoints (ms.map eraseMutatorErr) dps r =
        mutateExponentialHistogramDataPoints ms dps r := by
  intro dps
  induction dps with
  | nil => intro r; rfl
  | cons dp rest ih =>
    intro r
    simp [mutateExponentialHistogramDataPoints, applyMutators_erase, ih]

lemma mutateSummaryDataPoints_erase (ms : List AttributesMutator) :
    ∀ dps r,
      mutateSummaryDataPoints (ms.map eraseMutatorErr) dps r =
        mutateSummaryDataPoints ms dps r := by
  intro dps
  induction dps with
  | nil => intro r; rfl
  | cons dp rest ih =>
    intro r
    simp [mutateSummaryDataPoints, applyMutators_erase, ih]

lemma replaceNumberDataPoints_erase (rep : AttributesMutator) :
    ∀ dps r,
      replaceNumberDataPoints (eraseMutatorErr rep) dps r =
        replaceNumberDataPoints rep dps r := by
  intro dps
  induction dps with
  | nil => intro r; rfl
  | cons dp rest ih =>
    intro r
    simp [replaceNumberDataPoints, eraseMutatorErr, ih]

lemma replaceHistogramDataPoints_erase (rep : AttributesMutator) :
    ∀ dps r,
      replaceHistogramDataPoints (eraseMutatorErr rep) dps r =
        replaceHistogramDataPoints rep dps r := by
  intro dps
  induction dps with
  | nil => intro r; rfl
  | cons dp rest ih =>
    intro r
    simp [replaceHistogramDataPoints, eraseMutatorErr, ih]

lemma replaceExponentialHistogramDataPoints_erase (rep : AttributesMutator) :
    ∀ dps r,
      replaceExponentialHistogramDataPoints (eraseMutatorErr rep) dps r =
        replaceExponentialHistogramDataPoints rep dps r := by
  intro dps
  induction dps with
  | nil => intro r; rfl
  | cons dp rest ih =>
    intro r
    simp [replaceExponentialHistogramDataPoints, eraseMutatorErr, ih]

lemma replaceSummaryDataPoints_erase (rep : AttributesMutator) :
    ∀ dps r,
      replaceSummaryDataPoints (eraseMutatorErr rep) dps r =
        replaceSummaryDataPoints rep dps r := by
  intro dps
  induction dps with
  | nil => intro r; rfl
  | cons dp rest ih =>
    intro r
    simp [replaceSummaryDataPoints, eraseMutatorErr, ih]

lemma processMetricAttributes_erase (ap : ProcessorState) (m : Metric)
    (r : AttrMap) :
    processMetricAttributes (eraseErrState ap) m r = processMetricAttributes ap m r := by
  cases hm : m.data with
  | gauge dps =>
    simp [processMetricAttributes, hm, eraseErrState, processNumberDataPoints,
      mutateNumberDataPoints_erase, replaceNumberDataPoints_erase,
      shouldDropDataPoint_erase]
  | sum dps =>
    simp [processMetricAttributes, hm, eraseErrState, processNumberDataPoints,
      mutateNumberDataPoints_erase, replaceNumberDataPoints_erase,
      shouldDropDataPoint_erase]
  | histogram dps =>
    simp [processMetricAttributes, hm, eraseErrState, processHistogramDataPoints,
      mutateHistogramDataPoints_erase, replaceHistogramDataPoints_erase,
      shouldDropDataPoint_erase]
  | exponentialHistogram dps =>
    simp [processMetricAttributes, hm, eraseErrState,
      processExponentialHistogramDataPoints,
      mutateExponentialHistogramDataPoints_erase,
      replaceExponentialHistogramDataPoints_erase, shouldDropDataPoint_erase]
  | summary dps =>
    simp [processMetricAttributes, hm, eraseErrState, processSummaryDataPoints,
      mutateSummaryDataPoints_erase, replaceSummaryDataPoints_erase,
      shouldDropDataPoint_erase]
  | empty => simp [processMetricAttributes, hm]

lemma processMetricsInScope_erase (ap : ProcessorState) :
    ∀ ms r, processMetricsInScope (eraseErrState ap) ms r = processMetricsInScope ap ms r := by
  intro ms
  induction ms with
  | nil => intro r; rfl
  | cons m rest ih =>
    intro r
    simp [processMetricsInScope, processMetricAttributes_erase, ih]

lemma processScopeMetricsList_erase (ap : ProcessorState) :
    ∀ scopes r,
      processScopeMetricsList (eraseErrState ap) scopes r =
        processScopeMetricsList ap scopes r := by
  intro scopes
  induction scopes with
  | nil => intro r; rfl
  | cons sm rest ih =>
    intro r
    simp [processScopeMetricsList, processMetricsInScope_erase, ih]

/-- C6: `processTraces` and `processMetrics` always return a nil error, and
their results are invariant under forcing every chained mutator's error
return to nil — so a mutator error on one unit neither removes anything, nor
stops the remaining mutators on that unit, nor stops the processing of
subsequent units (including the skip of an unrecognized datapoint kind,
which the erasure equality covers through the `empty` branch). -/
theorem process_returns_nil_error_and_ignores_mutator_errors
    (ap : ProcessorState) (td : Traces) (md : Metrics) :
    (processTraces ap td).2 = none ∧ (processMetrics ap md).2 = none ∧
    processTraces (eraseErrState ap) td = processTraces ap td ∧
    processMetrics (eraseErrState ap) md = processMetrics ap md := by
  refine ⟨rfl, rfl, ?_, ?_⟩
  · unfold processTraces
    refine congrArg (fun l => (l, (none : Option String))) ?_
    refine List.map_congr_left ?_
    intro rs _
    show (let p := processScopeSpansList (eraseErrState ap).traceMutators
            rs.scopeSpans rs.resourceAttributes
          { rs with resourceAttributes := p.2, scopeSpans := p.1 }) = _
    simp only [eraseErrState]
    rw [processScopeSpansList_erase]
  · unfold processMetrics
    refine congrArg (fun l => (l, (none : Option String))) ?_
    refine List.map_congr_left ?_
    intro rm _
    show (let p := processScopeMetricsList (eraseErrState ap)
            rm.scopeMetrics rm.resourceAttributes
          { rm with resourceAttributes := p.2, scopeMetrics := p.1 }) = _
    rw [processScopeMetricsList_erase]

end AwsAppSignals

namespace AwsAppSignals

/-! ## Projection lemmas: each per-kind branch implements the generic
attribute-map pipeline -/

lemma filter_map_attrs {α : Type} (attrsOf : α → AttrMap) (p : AttrMap → Bool)
    (l : List α) :
    (l.filter (fun d => p (attrsOf d))).map attrsOf = (l.map attrsOf).filter p := by
  induction l with
  | nil => rfl
  | cons a t ih => by_cases h : p (attrsOf a) <;> simp [h, ih]

lemma mutateNumberDataPoints_proj (ms : List AttributesMutator) :
    ∀ dps r,
      ((mutateNumberDataPoints ms dps r).1.map (fun d => d.attributes),
        (mutateNumberDataPoints ms dps r).2) =
        mutateAttrMaps ms (dps.map (fun d => d.attributes)) r := by
  intro dps
  induction dps with
  | nil => intro r; rfl
  | cons dp rest ih =>
    intro r
    have h := ih (applyMutators ms false dp.attributes r).2
    simp only [mutateNumberDataPoints, mutateAttrMaps, List.map_cons, ← h]

lemma mutateHistogramDataPoints_proj (ms : List AttributesMutator) :
    ∀ dps r,
      ((mutateHistogramDataPoints ms dps r).1.map (fun d => d.attributes),
        (mutateHistogramDataPoints ms dps r).2) =
        mutateAttrMaps ms (dps.map (fun d => d.attributes)) r := by
  intro dps
  induction dps with
  | nil => intro r; rfl
  | cons dp rest ih =>
    intro r
    have h := ih (applyMutators ms false dp.attributes r).2
    simp only [mutateHistogramDataPoints, mutateAttrMaps, List.map_cons, ← h]

lemma mutateExponentialHistogramDataPoints_proj (ms : List AttributesMutator) :
    ∀ dps r,
      ((mutateExponentialHistogramDataPoints ms dps r).1.map (fun d => d.attributes),
        (mutateExponentialHistogramDataPoints ms dps r).2) =
        mutateAttrMaps ms (dps.map (fun d => d.attributes)) r := by
  intro dps
  induction dps with
  | nil => intro r; rfl
  | cons dp rest ih =>
    intro r
    have h := ih (applyMutators ms false dp.attributes r).2
    simp only [mutateExponentialHistogramDataPoints, mutateAttrMaps, List.map_cons, ← h]

lemma mutateSummaryDataPoints_proj (ms : List AttributesMutator) :
    ∀ dps r,
      ((mutateSummaryDataPoints ms dps r).1.map (fun d => d.attributes),
        (mutateSummaryDataPoints ms dps r).2) =
        mutateAttrMaps ms (dps.map (fun d => d.attributes)) r := by
  intro dps
  induction dps with
  | nil => intro r; rfl
  | cons dp rest ih =>
    intro r
    have h := ih (applyMutators ms false dp.attributes r).2
    simp only [mutateSummaryDataPoints, mutateAttrMaps, List.map_cons, ← h]

lemma replaceNumberDataPoints_proj (rep : AttributesMutator) :
    ∀ dps r,
      ((replaceNumberDataPoints rep dps r).1.map (fun d => d.attributes),
        (replaceNumberDataPoints rep dps r).2) =
        replaceAttrMaps rep (dps.map (fun d => d.attributes)) r := by
  intro dps
  induction dps with
  | nil => intro r; rfl
  | cons dp rest ih =>
    intro r
    have h := ih (rep dp.attributes r false).resource
    simp only [replaceNumberDataPoints, replaceAttrMaps, List.map_cons, ← h]

lemma replaceHistogramDataPoints_proj (rep : AttributesMutator) :
    ∀ dps r,
      ((replaceHistogramDataPoints rep dps r).1.map (fun d => d.attributes),
        (replaceHistogramDataPoints rep dps r).2) =
        replaceAttrMaps rep (dps.map (fun d => d.attributes)) r := by
  intro dps
  induction dps with
  | nil => intro r; rfl
  | cons dp rest ih =>
    intro r
    have h := ih (rep dp.attributes r false).resource
    simp only [replaceHistogramDataPoints, replaceAttrMaps, List.map_cons, ← h]

lemma replaceExponentialHistogramDataPoints_proj (rep : AttributesMutator) :
    ∀ dps r,
      ((replaceExponentialHistogramDataPoints rep dps r).1.map (fun d => d.attributes),
        (replaceExponentialHistogramDataPoints rep dps r).2) =
        replaceAttrMaps rep (dps.map (fun d => d.attributes)) r := by
  intro dps
  induction dps with
  | nil => intro r; rfl
  | cons dp rest ih =>
    intro r
    have h := ih (rep dp.attributes r false).resource
    simp only [replaceExponentialHistogramDataPoints, replaceAttrMaps, List.map_cons, ← h]

lemma replaceSummaryDataPoints_proj (rep : AttributesMutator) :
    ∀ dps r,
      ((replaceSummaryDataPoints rep dps r).1.map (fun d => d.attributes),
        (replaceSummaryDataPoints rep dps r).2) =
        replaceAttrMaps rep (dps.map (fun d => d.attributes)) r := by
  intro dps
  induction dps with
  | nil => intro r; rfl
  | cons dp rest ih =>
    intro r
    have h := ih (rep dp.attributes r false).resource
    simp only [replaceSummaryDataPoints, replaceAttrMaps, List.map_cons, ← h]

end AwsAppSignals

namespace AwsAppSignals

lemma processNumberDataPoints_proj (ms : List AttributesMutator)
    (al : List AllowListMutator) (rep : AttributesMutator)
    (dps : List NumberDataPoint) (r : AttrMap) :
    ((processNumberDataPoints ms al rep dps r).1.map (fun d => d.attributes),
      (processNumberDataPoints ms al rep dps r).2) =
      processAttrMaps ms al rep (dps.map (fun d => d.attributes)) r := by
  dsimp only [processNumberDataPoints, processAttrMaps]
  rw [← mutateNumberDataPoints_proj ms dps r]
  dsimp only
  rw [← @filter_map_attrs NumberDataPoint (fun d => d.attributes)
    (fun a => ! shouldDropDataPoint al a) (mutateNumberDataPoints ms dps r).1]
  exact replaceNumberDataPoints_proj rep _ _

lemma processHistogramDataPoints_proj (ms : List AttributesMutator)
    (al : List AllowListMutator) (rep : AttributesMutator)
    (dps : List HistogramDataPoint) (r : AttrMap) :
    ((processHistogramDataPoints ms al rep dps r).1.map (fun d => d.attributes),
      (processHistogramDataPoints ms al rep dps r).2) =
      processAttrMaps ms al rep (dps.map (fun d => d.attributes)) r := by
  dsimp only [processHistogramDataPoints, processAttrMaps]
  rw [← mutateHistogramDataPoints_proj ms dps r]
  dsimp only
  rw [← @filter_map_attrs HistogramDataPoint (fun d => d.attributes)
    (fun a => ! shouldDropDataPoint al a) (mutateHistogramDataPoints ms dps r).1]
  exact replaceHistogramDataPoints_proj rep _ _

lemma processExponentialHistogramDataPoints_proj (ms : List AttributesMutator)
    (al : List AllowListMutator) (rep : AttributesMutator)
    (dps : List ExponentialHistogramDataPoint) (r : AttrMap) :
    ((processExponentialHistogramDataPoints ms al rep dps r).1.map
        (fun d => d.attributes),
      (processExponentialHistogramDataPoints ms al rep dps r).2) =
      processAttrMaps ms al rep (dps.map (fun d => d.attributes)) r := by
  dsimp only [processExponentialHistogramDataPoints, processAttrMaps]
  rw [← mutateExponentialHistogramDataPoints_proj ms dps r]
  dsimp only
  rw [← @filter_map_attrs ExponentialHistogramDataPoint (fun d => d.attributes)
    (fun a => ! shouldDropDataPoint al a) (mutateExponentialHistogramDataPoints ms dps r).1]
  exact replaceExponentialHistogramDataPoints_proj rep _ _

lemma processSummaryDataPoints_proj (ms : List AttributesMutator)
    (al : List AllowListMutator) (rep : AttributesMutator)
    (dps : List SummaryDataPoint) (r : AttrMap) :
    ((processSummaryDataPoints ms al rep dps r).1.map (fun d => d.attributes),
      (processSummaryDataPoints ms al rep dps r).2) =
      processAttrMaps ms al rep (dps.map (fun d => d.attributes)) r := by
  dsimp only [processSummaryDataPoints, processAttrMaps]
  rw [← mutateSummaryDataPoints_proj ms dps r]
  dsimp only
  rw [← @filter_map_attrs SummaryDataPoint (fun d => d.attributes)
    (fun a => ! shouldDropDataPoint al a) (mutateSummaryDataPoints ms dps r).1]
  exact replaceSummaryDataPoints_proj rep _ _

/-- C7: the five datapoint kinds have identical semantics — datapoint lists
of the five kinds carrying the same attribute maps, processed with the same
processor state and resource attributes, produce the same mutated attribute
maps, the same drop decisions (hence the same surviving attribute lists),
the same replacements, and the same final resource map: each branch's
attribute outcome equals the one generic attribute-map pipeline. -/
theorem five_kinds_identical_semantics (ap : ProcessorState)
    (attrsList : List AttrMap) (res : AttrMap) (name : String)
    (gdps sdps : List NumberDataPoint) (hdps : List HistogramDataPoint)
    (edps : List ExponentialHistogramDataPoint) (smdps : List SummaryDataPoint)
    (hg : gdps.map (fun d => d.attributes) = attrsList)
    (hs : sdps.map (fun d => d.attributes) = attrsList)
    (hh : hdps.map (fun d => d.attributes) = attrsList)
    (he : edps.map (fun d => d.attributes) = attrsList)
    (hsm : smdps.map (fun d => d.attributes) = attrsList) :
    (metricAttrs (processMetricAttributes ap ⟨name, .gauge gdps⟩ res).1,
      (processMetricAttributes ap ⟨name, .gauge gdps⟩ res).2) =
      processAttrMaps ap.metricMutators ap.allowlistMutators ap.replaceActions
        attrsList res ∧
    (metricAttrs (processMetricAttributes ap ⟨name, .sum sdps⟩ res).1,
      (processMetricAttributes ap ⟨name, .sum sdps⟩ res).2) =
      processAttrMaps ap.metricMutators ap.allowlistMutators ap.replaceActions
        attrsList res ∧
    (metricAttrs (processMetricAttributes ap ⟨name, .histogram hdps⟩ res).1,
      (processMetricAttributes ap ⟨name, .histogram hdps⟩ res).2) =
      processAttrMaps ap.metricMutators ap.allowlistMutators ap.replaceActions
        attrsList res ∧
    (metricAttrs (processMetricAttributes ap ⟨name, .exponentialHistogram edps⟩ res).1,
      (processMetricAttributes ap ⟨name, .exponentialHistogram edps⟩ res).2) =
      processAttrMaps ap.metricMutators ap.allowlistMutators ap.replaceActions
        attrsList res ∧
    (metricAttrs (processMetricAttributes ap ⟨name, .summary smdps⟩ res).1,
      (processMetricAttributes ap ⟨name, .summary smdps⟩ res).2) =
      processAttrMaps ap.metricMutators ap.allowlistMutators ap.replaceActions
        attrsList res := by
  refine ⟨?_, ?_, ?_, ?_, ?_⟩
  · rw [← hg]
    exact processNumberDataPoints_proj ap.metricMutators ap.allowlistMutators
      ap.replaceActions gdps res
  · rw [← hs]
    exact processNumberDataPoints_proj ap.metricMutators ap.allowlistMutators
      ap.replaceActions sdps res
  · rw [← hh]
    exact processHistogramDataPoints_proj ap.metricMutators ap.allowlistMutators
      ap.replaceActions hdps res
  · rw [← he]
    exact processExponentialHistogramDataPoints_proj ap.metricMutators
      ap.allowlistMutators ap.replaceActions edps res
  · rw [← hsm]
    exact processSummaryDataPoints_proj ap.metricMutators ap.allowlistMutators
      ap.replaceActions smdps res

/-- C7 witness: one datapoint of each of the five kinds, all carrying the
same attribute map, processed by a concretely wired processor, give the
same attribute outcome. -/
theorem five_kinds_identical_semantics_witness :
    (let ap := (Start idMutator (fun _ => none) idMutator idMutator
      (keeperShouldBeDropped []) (dropperShouldBeDropped []) initialState).1
     let a : AttrMap := [("ip", "10.0.0.5")]
     (metricAttrs (processMetricAttributes ap ⟨"m", .gauge [⟨a, 1⟩]⟩ []).1,
       (processMetricAttributes ap ⟨"m", .gauge [⟨a, 1⟩]⟩ []).2) =
       processAttrMaps ap.metricMutators ap.allowlistMutators ap.replaceActions
         [a] [] ∧
     (metricAttrs (processMetricAttributes ap ⟨"m", .summary [⟨a, [2]⟩]⟩ []).1,
       (processMetricAttributes ap ⟨"m", .summary [⟨a, [2]⟩]⟩ []).2) =
       processAttrMaps ap.metricMutators ap.allowlistMutators ap.replaceActions
         [a] []) := by
  have h := five_kinds_identical_semantics
    ((Start idMutator (fun _ => none) idMutator idMutator
      (keeperShouldBeDropped []) (dropperShouldBeDropped []) initialState).1)
    [[("ip", "10.0.0.5")]] [] "m"
    [⟨[("ip", "10.0.0.5")], 1⟩] [⟨[("ip", "10.0.0.5")], 1⟩]
    [⟨[("ip", "10.0.0.5")], [1]⟩] [⟨[("ip", "10.0.0.5")], 1⟩]
    [⟨[("ip", "10.0.0.5")], [2]⟩]
    rfl rfl rfl rfl rfl
  exact ⟨h.1, h.2.2.2.2⟩

end AwsAppSignals

namespace Ec2TaggerProcessor

lemma translate_ok_fields (x : ExternalDeps) (c : Conf)
    (hset : isSet c (ec2taggerKey x) = true) :
    ∃ cfg, Translate x (some c) = .ok cfg ∧
      cfg.refreshTagsInterval = 0 ∧
      cfg.refreshVolumesInterval =
        (if getString c (diskVolumeIdKey x) = some x.valueAppendDimensionVolumeId
          then fiveMinutes else 0) := by
  unfold Translate
  simp only [hset, Bool.not_true, Bool.false_eq_true, if_false]
  cases hv : getString c (diskVolumeIdKey x) with
  | none =>
    refine ⟨_, rfl, rfl, ?_⟩
    simp [hv]
  | some v =>
    by_cases hval : v = x.valueAppendDimensionVolumeId
    · refine ⟨_, rfl, ?_⟩
      simp [hv, hval]
    · refine ⟨_, rfl, ?_⟩
      simp [hv, hval]

end Ec2TaggerProcessor

namespace Ec2TaggerProcessor

/-- C10: `Translate` returns no config and a `MissingKeyError` (for the
metrics append-dimensions key) exactly when the configuration is nil or the
metrics append-dimensions key is not set; when it succeeds, the returned
config always has a zero `RefreshTagsInterval`, and its
`RefreshVolumesInterval` is five minutes when the disk volume-id
append-dimension is configured with the volume-id sentinel value and zero
otherwise. -/
theorem ec2tagger_translate_spec (x : ExternalDeps) (conf : Option Conf) :
    ((∃ e, Translate x conf = .error e) ↔
      (conf = none ∨ ∃ c, conf = some c ∧ isSet c (ec2taggerKey x) = false)) ∧
    (∀ e, Translate x conf = .error e → e = ⟨x.translatorID, ec2taggerKey x⟩) ∧
    (∀ cfg, Translate x conf = .ok cfg →
      cfg.refreshTagsInterval = 0 ∧
      ∃ c, conf = some c ∧
        cfg.refreshVolumesInterval =
          (if getString c (diskVolumeIdKey x) = some x.valueAppendDimensionVolumeId
            then fiveMinutes else 0)) := by
  cases conf with
  | none =>
    refine ⟨?_, ?_, ?_⟩
    · simp [Translate]
    · intro e he
      simp only [Translate] at he
      exact (Except.error.inj he).symm
    · intro cfg h
      simp [Translate] at h
  | some c =>
    by_cases hset : isSet c (ec2taggerKey x) = true
    · obtain ⟨cfg0, hok, htags, hvol⟩ := translate_ok_fields x c hset
      refine ⟨?_, ?_, ?_⟩
      · simp [hok, hset]
      · intro e he
        rw [hok] at he
        cases he
      · intro cfg h
        rw [hok] at h
        have hc : cfg0 = cfg := Except.ok.inj h
        subst hc
        exact ⟨htags, c, rfl, hvol⟩
    · have hset' : isSet c (ec2taggerKey x) = false := by
        cases h : isSet c (ec2taggerKey x) <;> simp_all
      refine ⟨?_, ?_, ?_⟩
      · constructor
        · intro _
          exact Or.inr ⟨c, rfl, hset'⟩
        · intro _
          exact ⟨⟨x.translatorID, ec2taggerKey x⟩, by simp [Translate, hset']⟩
      · intro e he
        simp only [Translate, hset', Bool.not_false, if_true] at he
        exact (Except.error.inj he).symm
      · intro cfg h
        simp [Translate, hset'] at h

set_option maxRecDepth 8192 in
/-- C10 witness: a concrete configuration that sets one append-dimension and
the disk volume-id append-dimension with the sentinel value yields a config
with zero tags-refresh interval and a five-minute volumes-refresh interval. -/
theorem ec2tagger_translate_spec_witness :
    (let x : ExternalDeps :=
      { metricsKey := "metrics", appendDimensionsKey := "append_dimensions",
        metricsCollectedKey := "metrics_collected", diskKey := "disk",
        attributeVolumeId := "VolumeId",
        valueAppendDimensionVolumeId := "${aws:VolumeId}",
        supportedAppendDimensions := [("InstanceId", "${aws:InstanceId}")],
        defaultConfig :=
          { refreshTagsInterval := 1, refreshVolumesInterval := 2,
            ec2MetadataTags := [], ec2InstanceTagKeys := [], ebsDeviceKeys := [],
            diskDeviceTagKey := "", middlewareID := none, imdsRetries := 0 },
        unmarshalCredentials := fun cfg => cfg, statusCodeID := "sc",
        defaultRetryNumber := 1, translatorID := "ec2tagger" }
     let c : Conf :=
       [("metrics::append_dimensions::InstanceId", "${aws:InstanceId}"),
        ("metrics::metrics_collected::disk::append_dimensions::VolumeId",
          "${aws:VolumeId}")]
     let cfg : Ec2TaggerConfig :=
       { refreshTagsInterval := 0, refreshVolumesInterval := 300000000000,
         ec2MetadataTags := ["InstanceId"], ec2InstanceTagKeys := [],
         ebsDeviceKeys := ["*"], diskDeviceTagKey := "device",
         middlewareID := some "sc", imdsRetries := 1 }
     Translate x (some c) = .ok cfg ∧
       cfg.refreshTagsInterval = 0 ∧ cfg.refreshVolumesInterval = fiveMinutes) := by
  refine ⟨by decide, ?_⟩
  have hs := (ec2tagger_translate_spec
    { metricsKey := "metrics", appendDimensionsKey := "append_dimensions",
      metricsCollectedKey := "metrics_collected", diskKey := "disk",
      attributeVolumeId := "VolumeId",
      valueAppendDimensionVolumeId := "${aws:VolumeId}",
      supportedAppendDimensions := [("InstanceId", "${aws:InstanceId}")],
      defaultConfig :=
        { refreshTagsInterval := 1, refreshVolumesInterval := 2,
          ec2MetadataTags := [], ec2InstanceTagKeys := [], ebsDeviceKeys := [],
          diskDeviceTagKey := "", middlewareID := none, imdsRetries := 0 },
      unmarshalCredentials := fun cfg => cfg, statusCodeID := "sc",
      defaultRetryNumber := 1, translatorID := "ec2tagger" }
    (some [("metrics::append_dimensions::InstanceId", "${aws:InstanceId}"),
      ("metrics::metrics_collected::disk::append_dimensions::VolumeId",
        "${aws:VolumeId}")])).2.2
    { refreshTagsInterval := 0, refreshVolumesInterval := 300000000000,
      ec2MetadataTags := ["InstanceId"], ec2InstanceTagKeys := [],
      ebsDeviceKeys := ["*"], diskDeviceTagKey := "device",
      middlewareID := some "sc", imdsRetries := 1 } (by decide)
  refine ⟨hs.1, ?_⟩
  obtain ⟨c', hc', hvol⟩ := hs.2
  rw [hvol]
  have : c' = [("metrics::append_dimensions::InstanceId", "${aws:InstanceId}"),
    ("metrics::metrics_collected::disk::append_dimensions::VolumeId",
      "${aws:VolumeId}")] := (Option.some.inj hc').symm
  subst this
  decide

end Ec2TaggerProcessor
